import Mathlib

/-!
Verification development for the LomiTalk matchmaking-and-billing engine.

The engine is embedded shallowly from the Python sources:
the users table of lomi.py / app.py becomes an association list of user rows
in insertion order (Python dict / SELECT order), the handlers become pure
state-passing functions, and the Main.py / database.py variant is embedded
separately with its own row type.
-/

namespace LomiChat

/-- One row of the users table (lomi.py setup_database lines 61-78 /
app.py CREATE_USERS_SQL lines 75-92), restricted to the fields the
matchmaking-and-billing engine reads or writes. Points are Python integers,
so they are modelled as Int with no bound. Optional text columns are Option
String, the cleared partner reference is none. -/
structure UserData where
  points : Int
  profile_complete : Bool
  in_pool : Bool
  in_conversation : Bool
  conversation_partner : Option Nat
  is_initiator : Bool
  gender : Option String
  age_group : Option String
  preferred_gender : Option String
  preferred_age_group : Option String
deriving Repr, DecidableEq

/-- Field defaults used by update_user_data when a row is created from an
empty current_data dict (lomi.py lines 121-136): points default 0, flags
default false, text columns default null. -/
def defaultUser : UserData :=
  { points := 0, profile_complete := false, in_pool := false,
    in_conversation := false, conversation_partner := none,
    is_initiator := false, gender := none, age_group := none,
    preferred_gender := none, preferred_age_group := none }

/-- The users table in row order, keyed by user id. -/
abbrev DB := List (Nat × UserData)

/-- get_user_data (lomi.py lines 86-110 / app.py get_user_data_async lines
111-129): the row for the given id, none when absent. -/
def getUser : DB → Nat → Option UserData
  | [], _ => none
  | e :: rest, uid => if e.1 = uid then some e.2 else getUser rest uid

/-- update_user_data (lomi.py lines 112-165 / app.py update_user_data_async
lines 131-208): read-merge-upsert on one row. An existing row is replaced in
place; a missing id is inserted at the end with defaults merged. -/
def modifyUser : DB → Nat → (UserData → UserData) → DB
  | [], uid, f => [(uid, f defaultUser)]
  | e :: rest, uid, f =>
      if e.1 = uid then (e.1, f e.2) :: rest else e :: modifyUser rest uid f

/-- The table is well formed when user ids are unique (user_id is the
primary key in both schemas). -/
abbrev WF (db : DB) : Prop := (db.map Prod.fst).Nodup

/-- Sum of all balances across all users. -/
def totalPoints (db : DB) : Int := (db.map (fun e => e.2.points)).sum

/-- Candidate test of find_partner (lomi.py lines 203-217 / app.py lines
259-275): the candidate must differ from the requester, be in the pool, not
be in a conversation and have a complete profile; each stored preference
filters by equality, where a missing preference, or the empty string, is
falsy in Python and disables that filter. -/
def qualifies (requesterId : Nat) (prefGender prefAge : Option String)
    (uid : Nat) (d : UserData) : Bool :=
  uid != requesterId && d.in_pool && !d.in_conversation && d.profile_complete &&
    (match prefGender with
     | none => true
     | some g => g == "" || d.gender == some g) &&
    (match prefAge with
     | none => true
     | some a => a == "" || d.age_group == some a)

/-- find_partner (lomi.py lines 193-218 / app.py find_partner_async lines
242-276): returns none when the requester is missing or not in the pool,
otherwise the first row in scan order passing the candidate test, with the
filters taken from the stored preferences of the requester. It reads but never
writes the table, which the return type makes evident. -/
def find_partner (db : DB) (userId : Nat) : Option Nat :=
  match getUser db userId with
  | none => none
  | some u =>
      if u.in_pool then
        (db.find? (fun e =>
          qualifies userId u.preferred_gender u.preferred_age_group e.1 e.2)).map
          (fun e => e.1)
      else none

/-- Modelled from the spec wording for the search contract: a candidate
qualifies iff its id differs from the requester, it is in the pool, not in
a conversation, its profile is complete, and it equals each filter field
that is set. Written from the spec sentence, to be compared with the
qualifies test taken from the source. -/
def specQualifies (requesterId : Nat) (fGender fAge : Option String)
    (uid : Nat) (d : UserData) : Bool :=
  uid != requesterId && d.in_pool && !d.in_conversation && d.profile_complete &&
    (Option.all (fun g => d.gender == some g) fGender) &&
    (Option.all (fun a => d.age_group == some a) fAge)

/-- Modelled from the spec wording for the search contract: the first
candidate in scan order satisfying specQualifies, none when no candidate
qualifies; no side effect and no precondition on the requester. -/
def specSearch (db : DB) (requesterId : Nat) (fGender fAge : Option String) :
    Option Nat :=
  (db.find? (fun e => specQualifies requesterId fGender fAge e.1 e.2)).map
    (fun e => e.1)

/-- The pairing step of handle_age_preference after a candidate is found
(lomi.py lines 462-481 / app.py lines 480-502): mark both users in
conversation, point each partner id at the other, flag the seeker as
initiator and the candidate as not; the in_pool flags are not written. -/
def tryPair (db : DB) (userId : Nat) : Option Nat × DB :=
  match find_partner db userId with
  | none => (none, db)
  | some partnerId =>
      let db1 := modifyUser db userId (fun u =>
        { u with in_conversation := true, conversation_partner := some partnerId,
                 is_initiator := true })
      let db2 := modifyUser db1 partnerId (fun u =>
        { u with in_conversation := true, conversation_partner := some userId,
                 is_initiator := false })
      (some partnerId, db2)

/-- handle_age_preference (lomi.py lines 449-495 / app.py lines 467-502):
store the chosen age preference on the seeker, then search and pair. -/
def handle_age_preference (db : DB) (userId : Nat) (agePref : Option String) :
    Option Nat × DB :=
  tryPair (modifyUser db userId (fun u => { u with preferred_age_group := agePref })) userId

/-- A billable unit: a text message, a photo, or a video. -/
inductive Payload
  | text (s : String)
  | photo
  | video
deriving Repr, DecidableEq

/-- Unit cost (lomi.py lines 685, 712, 737 / app.py lines 626, 639, 652):
one point per character of text, 150 for a photo, 250 for a video. -/
def unitCost : Payload → Int
  | .text s => s.length
  | .photo => 150
  | .video => 250

/-- An update carrying empty text matches none of the payload branches of
the handler (Python truthiness of the empty string) and is ignored. -/
def blank : Payload → Bool
  | .text s => s == ""
  | _ => false

/-- Outcome of the message handler, as surfaced to the sender. -/
inductive SendResult
  | notInConversation
  | noPartner
  | insufficientFunds
  | delivered (partnerId : Nat)
  | ignored
deriving Repr, DecidableEq

/-- The initiator billing block (lomi.py lines 687-698 / app.py lines
627-635): reject with no write when the sender holds fewer points than the
unit cost; otherwise write the sender balance minus the cost and the
partner balance plus the cost, the partner balance having been read before
either write (partner_data is fetched first; a missing partner row reads as
points 0 and the credit upserts it). -/
def billUnit (db : DB) (userId partnerId : Nat) (u : UserData) (cost : Int) :
    SendResult × DB :=
  if u.points < cost then (.insufficientFunds, db)
  else
    let partnerPoints := ((getUser db partnerId).map (fun p => p.points)).getD 0
    (.delivered partnerId,
      modifyUser (modifyUser db userId (fun x => { x with points := u.points - cost }))
        partnerId (fun x => { x with points := partnerPoints + cost }))

/-- handle_message during a conversation (lomi.py lines 649-757 / app.py
lines 600-664; the profile-setup branch is out of engine scope): a sender
not in a conversation is refused; a conversation row with no partner id
reports an error and writes nothing; an initiator is billed through
billUnit before delivery, a responder delivers with no write at all. -/
def handle_message (db : DB) (userId : Nat) (pl : Payload) : SendResult × DB :=
  match getUser db userId with
  | none => (.notInConversation, db)
  | some u =>
      if u.in_conversation then
        match u.conversation_partner with
        | none => (.noPartner, db)
        | some partnerId =>
            if blank pl then (.ignored, db)
            else if u.is_initiator then billUnit db userId partnerId u (unitCost pl)
            else (.delivered partnerId, db)
      else (.notInConversation, db)

/-- Outcome of the end handler. -/
inductive EndResult
  | notBound
  | ended (partnerId : Option Nat)
deriving Repr, DecidableEq

/-- The session-attribute reset written by end_conversation to each side
(lomi.py lines 508-519 / app.py lines 512-514). -/
def resetSession (u : UserData) : UserData :=
  { u with in_conversation := false, conversation_partner := none, is_initiator := false }

/-- end_conversation (lomi.py lines 498-526 / app.py lines 504-516): a
requester not in a conversation is told so and nothing is written; otherwise
the requester is reset first, and the partner row is reset as well whenever
the partner id is set (a dangling id upserts a fresh reset row). -/
def end_conversation (db : DB) (userId : Nat) : EndResult × DB :=
  match getUser db userId with
  | none => (.notBound, db)
  | some u =>
      if u.in_conversation then
        let db1 := modifyUser db userId resetSession
        match u.conversation_partner with
        | none => (.ended none, db1)
        | some partnerId => (.ended (some partnerId), modifyUser db1 partnerId resetSession)
      else (.notBound, db)

/-! The Main.py / database.py variant keeps a different users schema (row id,
role as a text column, partner_id, stats); its billing and settlement differ
from the lomi.py / app.py engine and are embedded separately. -/

/-- One users row of the Main.py / database.py variant (database.py lines
37-53), restricted to the fields its billing path touches. -/
structure MainUser where
  points : Int
  total_chars : Int
  role : Option String
  partner_id : Option Nat
deriving Repr, DecidableEq

/-- The variant users table in row order, keyed by telegram id. -/
abbrev MainDB := List (Nat × MainUser)

/-- Row lookup by telegram id (database.py get_user, lines 117-126). -/
def mainGet : MainDB → Nat → Option MainUser
  | [], _ => none
  | e :: rest, uid => if e.1 = uid then some e.2 else mainGet rest uid

/-- Row update by telegram id (database.py update_user, lines 151-162);
an absent id updates nothing, matching the SQL UPDATE. -/
def mainSet : MainDB → Nat → MainUser → MainDB
  | [], _, _ => []
  | e :: rest, uid, v => if e.1 = uid then (e.1, v) :: rest else e :: mainSet rest uid v

/-- Sum of all balances across the variant table. -/
def mainTotalPoints (db : MainDB) : Int := (db.map (fun e => e.2.points)).sum

/-- Outcome of the variant message handler. -/
inductive MainResult
  | notRegistered
  | notInConversation
  | partnerMissing
  | refused
  | forwarded (partnerId : Nat)
deriving Repr, DecidableEq

/-- ChatManager.handle_message, text path (Main.py lines 102-172). A sender
with role client holding at least len(text) points is debited len(text) and
has total_chars raised by len(text) (lines 146-157); no credit to the
partner is written here - the partner is credited only later, inside
database_end_conversation. A client short of points is refused before any
write. The conversation-id bookkeeping and message logging (lines 132-163)
never touch points and are modelled as succeeding; a missing partner row
leads into end_conversation (lines 126-130), modelled as the partnerMissing
outcome. -/
def chatManager_handle_message (db : MainDB) (userId : Nat) (text : String) :
    MainResult × MainDB :=
  match mainGet db userId with
  | none => (.notRegistered, db)
  | some u =>
      match u.partner_id with
      | none => (.notInConversation, db)
      | some partnerId =>
          match mainGet db partnerId with
          | none => (.partnerMissing, db)
          | some _ =>
              if u.role = some "client" then
                if (text.length : Int) ≤ u.points then
                  (.forwarded partnerId,
                    mainSet db userId
                      { u with points := u.points - text.length,
                               total_chars := u.total_chars + text.length })
                else (.refused, db)
              else (.forwarded partnerId, db)

/-- One users row of database.py as read and written by its settlement and
admin paths. -/
structure DbUser where
  points : Int
  status : String
  partner_id : Option Nat
  conversation_count : Int
  total_chars : Int
deriving Repr, DecidableEq

/-- Database.end_conversation (database.py lines 192-251): reads both
balances from the joined conversation row, moves
min(char_count, client_points) from the client to the partner, stamps both
rows inactive with the partner reference cleared and the stats advanced,
and records the amount moved. -/
def database_end_conversation (client partner : DbUser) (charCount : Int) :
    DbUser × DbUser × Int :=
  let t := min charCount client.points
  ({ client with
      points := client.points - t,
      status := "inactive",
      partner_id := none,
      conversation_count := client.conversation_count + 1,
      total_chars := client.total_chars + charCount },
   { partner with
      points := partner.points + t,
      status := "inactive",
      partner_id := none,
      conversation_count := partner.conversation_count + 1,
      total_chars := partner.total_chars + charCount },
   t)

/-- Database.add_points (database.py lines 296-315): an unconditional
delta on the balance, used for admin deposits and withdrawals alike (the
amount may be negative); no guard of any kind is applied. -/
def database_add_points (u : DbUser) (amount : Int) : DbUser :=
  { u with points := u.points + amount }

/-- AdminTool.remove_points (lomi.py lines 897-935): refuses when the user
holds fewer points than the amount and leaves the row untouched, otherwise
debits the amount. -/
def adminTool_remove_points (u : DbUser) (amount : Int) : Bool × DbUser :=
  if u.points < amount then (false, u) else (true, { u with points := u.points - amount })

/-! Storage round trip of the conversation_partner column in lomi.py. -/

/-- Serialization in update_user_data (lomi.py line 127): the merged value
is passed through str before the write, so a cleared partner (Python None)
is stored as the four-character string None and an integer id as its
decimal string. -/
def storePartnerField : Option Int → String
  | none => "None"
  | some n => toString n

/-- Decimal digit test, modelling the character class the Python int
constructor accepts in its digit positions. -/
def isDigitChar (c : Char) : Bool := '0' ≤ c && c ≤ '9'

/-- Value of a run of decimal digits, most significant first. -/
def digitsVal : List Char → Nat → Nat
  | [], acc => acc
  | c :: rest, acc => digitsVal rest (acc * 10 + (c.toNat - 48))

/-- Python int on a character run with the sign already split off: a
nonempty all-digit run parses, anything else raises ValueError. -/
def pyIntDigits (l : List Char) : Except Unit Int :=
  if l ≠ [] && l.all isDigitChar then Except.ok (digitsVal l 0) else Except.error ()

/-- Python int(s) for the strings stored in the conversation_partner
column: an optional-sign decimal numeral parses to its value, anything
else (such as the text None) raises ValueError. Surrounding whitespace and
digit underscores, which int also accepts, never occur in this column. -/
def pyInt (s : String) : Except Unit Int :=
  match s.data with
  | '-' :: rest => (pyIntDigits rest).map (fun n => -n)
  | '+' :: rest => pyIntDigits rest
  | l => pyIntDigits l

/-- Deserialization in get_user_data (lomi.py lines 101-103): a truthy
stored string is passed through int; a ValueError escapes the function,
since only sqlite3.Error is caught there. A falsy (empty) stored string is
left alone and reads as unset. -/
def loadPartnerField (stored : String) : Except Unit (Option Int) :=
  if stored == "" then Except.ok none
  else (pyInt stored).map some

/-- Write-then-read composition for the conversation_partner column of
lomi.py: what get_user_data yields for a value just written by
update_user_data. -/
def partnerRoundtrip (v : Option Int) : Except Unit (Option Int) :=
  loadPartnerField (storePartnerField v)

/-- Python str.strip character class, restricted to the ASCII whitespace
that can occur in these columns. -/
def isSpaceChar (c : Char) : Bool := c == ' ' || c == '\t' || c == '\n' || c == '\r'

/-- Python str.strip: drop whitespace from both ends. -/
def pyStrip (l : List Char) : List Char :=
  ((l.dropWhile isSpaceChar).reverse.dropWhile isSpaceChar).reverse

/-- Python str.lower on one ASCII character. -/
def pyLowerChar (c : Char) : Char :=
  if 'A' ≤ c && c ≤ 'Z' then Char.ofNat (c.toNat + 32) else c

/-- safe_int (app.py lines 53-63): stringify, strip, map the empty string
and the case-insensitive text None to null, parse a numeral otherwise, and
yield null instead of raising on a parse failure. -/
def safe_int (value : Option String) : Option Int :=
  match value with
  | none => none
  | some raw =>
      let s := pyStrip raw.data
      if s == [] || s.map pyLowerChar == "none".data then none
      else
        match pyInt (String.mk s) with
        | Except.ok n => some n
        | Except.error _ => none

/-- No row names itself as its own conversation partner. Pairing can never
produce such a row, since find_partner skips the requester. -/
def NoSelfPartner (db : DB) : Prop :=
  ∀ e ∈ db, e.2.conversation_partner ≠ some e.1

/-- A sequence of message sends, each by some sender with some payload,
run left to right through handle_message. -/
def runMessages (db : DB) : List (Nat × Payload) → DB
  | [] => db
  | (uid, pl) :: rest => runMessages (handle_message db uid pl).2 rest

/-! Concrete states used to exercise the operations. -/

/-- A pooled, complete, unbound profile holding 1000 points, the signup
balance. -/
def pooledUser : UserData :=
  { defaultUser with points := 1000, profile_complete := true, in_pool := true }

/-- Two pooled users, the smallest state on which pairing succeeds. -/
def pairDB : DB := [(1, pooledUser), (2, pooledUser)]

/-- A bound initiator at 1000 points, partnered with user 2. -/
def boundInitiator : UserData :=
  { defaultUser with
      points := 1000,
      profile_complete := true,
      in_conversation := true,
      conversation_partner := some 2,
      is_initiator := true }

/-- A bound responder at 1000 points, partnered with user 1. -/
def boundResponder : UserData :=
  { defaultUser with
      points := 1000,
      profile_complete := true,
      in_conversation := true,
      conversation_partner := some 1,
      is_initiator := false }

/-- A live session: initiator 1 and responder 2, both at 1000 points. -/
def sessionDB : DB := [(1, boundInitiator), (2, boundResponder)]

/-- The same session with the initiator down to a single point. -/
def poorSessionDB : DB := [(1, { boundInitiator with points := 1 }), (2, boundResponder)]

/-- An initiator whose partner reference 99 dangles: no row 99 exists. -/
def danglingDB : DB :=
  [(1, { boundInitiator with points := 10, conversation_partner := some 99 })]

/-- A requester outside the pool next to a fully qualifying candidate. -/
def outOfPoolDB : DB :=
  [(1, { defaultUser with profile_complete := true, in_pool := false }),
   (2, pooledUser)]

/-- A pooled requester with a gender filter next to a matching candidate. -/
def filteredDB : DB :=
  [(1, { pooledUser with preferred_gender := some "Male" }),
   (2, { pooledUser with gender := some "Male" })]

/-- The Main.py variant state: a client at 10 points in a conversation
with a partner at 1000 points. -/
def mainSessionDB : MainDB :=
  [(1, { points := 10, total_chars := 0, role := some "client", partner_id := some 2 }),
   (2, { points := 1000, total_chars := 0, role := some "partner", partner_id := some 1 })]

/-- A database.py client row at 10 points, mid conversation. -/
def dbClient : DbUser :=
  { points := 10, status := "busy", partner_id := some 2,
    conversation_count := 0, total_chars := 0 }

/-- A database.py partner row at 1000 points, mid conversation. -/
def dbPartner : DbUser :=
  { points := 1000, status := "busy", partner_id := some 1,
    conversation_count := 0, total_chars := 0 }

/-- An inactive database.py row at 1000 points, target of admin
adjustments. -/
def dbIdleUser : DbUser :=
  { points := 1000, status := "inactive", partner_id := none,
    conversation_count := 0, total_chars := 0 }

/-! Basic facts about the row store. -/

lemma getUser_modifyUser_self (db : DB) (uid : Nat) (f : UserData → UserData) :
    getUser (modifyUser db uid f) uid = some (f ((getUser db uid).getD defaultUser)) := by
  induction db with
  | nil => simp [getUser, modifyUser]
  | cons e rest ih =>
      by_cases h : e.1 = uid
      · simp [getUser, modifyUser, h]
      · simp [getUser, modifyUser, h, ih]

lemma getUser_modifyUser_of_eq (db : DB) (uid : Nat) (f : UserData → UserData)
    (u : UserData) (hu : getUser db uid = some u) :
    getUser (modifyUser db uid f) uid = some (f u) := by
  rw [getUser_modifyUser_self, hu]
  rfl

lemma getUser_modifyUser_ne (db : DB) (uid vid : Nat) (f : UserData → UserData)
    (h : vid ≠ uid) : getUser (modifyUser db uid f) vid = getUser db vid := by
  induction db with
  | nil =>
      simp only [modifyUser, getUser]
      rw [if_neg (fun hh => h hh.symm)]
  | cons e rest ih =>
      by_cases he : e.1 = uid
      · simp only [modifyUser, if_pos he, getUser]
        rw [if_neg (he ▸ fun hh => h hh.symm), if_neg (he ▸ fun hh => h hh.symm)]
      · simp only [modifyUser, if_neg he, getUser]
        by_cases hv : e.1 = vid
        · rw [if_pos hv, if_pos hv]
        · rw [if_neg hv, if_neg hv, ih]

lemma getUser_eq_of_mem (db : DB) (uid : Nat) (d : UserData) (hwf : WF db)
    (hm : (uid, d) ∈ db) : getUser db uid = some d := by
  induction db with
  | nil => cases hm
  | cons e rest ih =>
      rcases List.mem_cons.mp hm with h | h
      · rw [← h]
        simp [getUser]
      · have hkey : uid ∈ rest.map Prod.fst :=
          List.mem_map.mpr ⟨(uid, d), h, rfl⟩
        have hwf2 : WF rest ∧ e.1 ∉ rest.map Prod.fst := by
          have := hwf
          simp only [WF, List.map_cons, List.nodup_cons] at this
          exact ⟨this.2, this.1⟩
        have hne : e.1 ≠ uid := fun hh => hwf2.2 (hh ▸ hkey)
        simp only [getUser, if_neg hne]
        exact ih hwf2.1 h

lemma billUnit_reject (db : DB) (uid pid : Nat) (u : UserData) (cost : Int)
    (h : u.points < cost) : billUnit db uid pid u cost = (.insufficientFunds, db) := by
  simp [billUnit, h]

lemma billUnit_accept (db : DB) (uid pid : Nat) (u p : UserData) (cost : Int)
    (hp : getUser db pid = some p) (hne : pid ≠ uid) (hle : cost ≤ u.points)
    (hu : getUser db uid = some u) :
    (billUnit db uid pid u cost).1 = .delivered pid ∧
    getUser (billUnit db uid pid u cost).2 uid = some { u with points := u.points - cost } ∧
    getUser (billUnit db uid pid u cost).2 pid = some { p with points := p.points + cost } := by
  have h1 : ¬ (u.points < cost) := not_lt.mpr hle
  refine ⟨by simp [billUnit, h1], ?_, ?_⟩
  · simp only [billUnit, if_neg h1]
    rw [getUser_modifyUser_ne _ _ _ _ (fun hh => hne hh.symm)]
    exact getUser_modifyUser_of_eq _ _ _ _ hu
  · simp only [billUnit, if_neg h1]
    have h2 : getUser (modifyUser db uid (fun x => { x with points := u.points - cost })) pid
        = some p := by
      rw [getUser_modifyUser_ne _ _ _ _ hne]
      exact hp
    rw [getUser_modifyUser_of_eq _ _ _ _ h2, hp]
    rfl

lemma handle_message_init (db : DB) (uid pid : Nat) (u : UserData) (s : String)
    (hu : getUser db uid = some u) (hconv : u.in_conversation = true)
    (hpart : u.conversation_partner = some pid) (hinit : u.is_initiator = true)
    (hs : s ≠ "") :
    handle_message db uid (.text s) = billUnit db uid pid u (unitCost (.text s)) := by
  have hb : blank (.text s) = false := by simp [blank, hs]
  simp [handle_message, hu, hconv, hpart, hinit, hb]

lemma handle_message_responder (db : DB) (uid pid : Nat) (u : UserData) (s : String)
    (hu : getUser db uid = some u) (hconv : u.in_conversation = true)
    (hpart : u.conversation_partner = some pid) (hinit : u.is_initiator = false)
    (hs : s ≠ "") :
    handle_message db uid (.text s) = (.delivered pid, db) := by
  have hb : blank (.text s) = false := by simp [blank, hs]
  simp [handle_message, hu, hconv, hpart, hinit, hb]

/-! Conservation of points in the lomi.py / app.py engine: every billing
path is a debit-credit pair read-and-written as absolute balances, so any
sequence of sends leaves the total untouched (the Main.py variant breaks
this, which claim C1 records). -/

lemma totalPoints_cons (e : Nat × UserData) (db : DB) :
    totalPoints (e :: db) = e.2.points + totalPoints db := by
  simp [totalPoints]

lemma getUser_mem (db : DB) (uid : Nat) (u : UserData) (h : getUser db uid = some u) :
    (uid, u) ∈ db := by
  induction db with
  | nil => simp [getUser] at h
  | cons e rest ih =>
      obtain ⟨k, v⟩ := e
      by_cases he : k = uid
      · subst he
        simp only [getUser, if_pos rfl] at h
        obtain rfl : v = u := by injection h
        exact List.mem_cons_self _ _
      · simp only [getUser, if_neg he] at h
        exact List.mem_cons_of_mem _ (ih h)

lemma totalPoints_modifyUser_some (db : DB) (uid : Nat) (f : UserData → UserData)
    (u : UserData) (hu : getUser db uid = some u) :
    totalPoints (modifyUser db uid f) = totalPoints db + ((f u).points - u.points) := by
  induction db with
  | nil => simp [getUser] at hu
  | cons e rest ih =>
      by_cases he : e.1 = uid
      · simp only [getUser, if_pos he] at hu
        obtain rfl : e.2 = u := by injection hu
        simp only [modifyUser, if_pos he, totalPoints_cons]
        ring
      · simp only [getUser, if_neg he] at hu
        simp only [modifyUser, if_neg he, totalPoints_cons, ih hu]
        ring

lemma totalPoints_modifyUser_none (db : DB) (uid : Nat) (f : UserData → UserData)
    (hu : getUser db uid = none) :
    totalPoints (modifyUser db uid f) = totalPoints db + (f defaultUser).points := by
  induction db with
  | nil => simp [modifyUser, totalPoints]
  | cons e rest ih =>
      by_cases he : e.1 = uid
      · simp [getUser, if_pos he] at hu
      · simp only [getUser, if_neg he] at hu
        simp only [modifyUser, if_neg he, totalPoints_cons, ih hu]
        ring

lemma billUnit_conserves (db : DB) (uid pid : Nat) (u : UserData) (cost : Int)
    (hu : getUser db uid = some u) (hne : pid ≠ uid) :
    totalPoints (billUnit db uid pid u cost).2 = totalPoints db := by
  by_cases hc : u.points < cost
  · simp [billUnit, hc]
  · simp only [billUnit, if_neg hc]
    have h1 : totalPoints (modifyUser db uid
        (fun x => { x with points := u.points - cost })) =
        totalPoints db + ((u.points - cost) - u.points) :=
      totalPoints_modifyUser_some db uid _ u hu
    cases hp : getUser db pid with
    | some p =>
        have hp1 : getUser (modifyUser db uid
            (fun x => { x with points := u.points - cost })) pid = some p := by
          rw [getUser_modifyUser_ne _ _ _ _ hne]
          exact hp
        rw [totalPoints_modifyUser_some _ _ _ _ hp1, h1]
        simp only [Option.map_some', Option.getD_some]
        ring
    | none =>
        have hp1 : getUser (modifyUser db uid
            (fun x => { x with points := u.points - cost })) pid = none := by
          rw [getUser_modifyUser_ne _ _ _ _ hne]
          exact hp
        rw [totalPoints_modifyUser_none _ _ _ hp1, h1]
        simp only [Option.map_none', Option.getD_none]
        ring

lemma handle_message_conserves (db : DB) (uid : Nat) (pl : Payload)
    (h : NoSelfPartner db) :
    totalPoints (handle_message db uid pl).2 = totalPoints db := by
  cases hu : getUser db uid with
  | none => simp [handle_message, hu]
  | some u =>
      simp only [handle_message, hu]
      by_cases hconv : u.in_conversation
      · simp only [hconv, if_true]
        cases hp : u.conversation_partner with
        | none => simp
        | some pid =>
            simp only
            by_cases hb : blank pl
            · simp [hb]
            · simp only [hb, Bool.false_eq_true, if_false]
              by_cases hinit : u.is_initiator
              · simp only [hinit, if_true]
                have hne : pid ≠ uid := by
                  intro hh
                  subst hh
                  exact h (pid, u) (getUser_mem db pid u hu) hp
                exact billUnit_conserves db uid pid u _ hu hne
              · simp [hinit]
      · simp [hconv]

lemma noSelfPartner_modifyUser (db : DB) (uid : Nat) (f : UserData → UserData)
    (hf : ∀ x, (f x).conversation_partner = x.conversation_partner)
    (h : NoSelfPartner db) : NoSelfPartner (modifyUser db uid f) := by
  induction db with
  | nil =>
      intro e he
      simp only [modifyUser, List.mem_singleton] at he
      subst he
      simp only [hf defaultUser]
      simp [defaultUser]
  | cons a rest ih =>
      intro e he
      by_cases ha : a.1 = uid
      · simp only [modifyUser, if_pos ha] at he
        rcases List.mem_cons.mp he with h1 | h1
        · subst h1
          simp only [hf a.2]
          exact h a (List.mem_cons_self _ _)
        · exact h e (List.mem_cons_of_mem _ h1)
      · simp only [modifyUser, if_neg ha] at he
        rcases List.mem_cons.mp he with h1 | h1
        · subst h1
          exact h e (List.mem_cons_self _ _)
        · exact ih (fun x hx => h x (List.mem_cons_of_mem _ hx)) e h1

lemma noSelfPartner_handle_message (db : DB) (uid : Nat) (pl : Payload)
    (h : NoSelfPartner db) : NoSelfPartner (handle_message db uid pl).2 := by
  cases hu : getUser db uid with
  | none => simpa [handle_message, hu] using h
  | some u =>
      simp only [handle_message, hu]
      by_cases hconv : u.in_conversation
      · simp only [hconv, if_true]
        cases hp : u.conversation_partner with
        | none => simpa using h
        | some pid =>
            simp only
            by_cases hb : blank pl
            · simpa [hb] using h
            · simp only [hb, Bool.false_eq_true, if_false]
              by_cases hinit : u.is_initiator
              · simp only [hinit, if_true]
                by_cases hc : u.points < unitCost pl
                · simpa [billUnit, hc] using h
                · simp only [billUnit, if_neg hc]
                  apply noSelfPartner_modifyUser
                  · intro x
                    rfl
                  · apply noSelfPartner_modifyUser
                    · intro x
                      rfl
                    · exact h
              · simpa [hinit] using h
      · simpa [hconv] using h

lemma engine_conservation (db : DB) (ops : List (Nat × Payload))
    (h : NoSelfPartner db) :
    totalPoints (runMessages db ops) = totalPoints db := by
  induction ops generalizing db with
  | nil => rfl
  | cons op rest ih =>
      obtain ⟨uid, pl⟩ := op
      rw [runMessages]
      rw [ih _ (noSelfPartner_handle_message db uid pl h)]
      exact handle_message_conserves db uid pl h

/-! Claim theorems. -/

/-- C1: the Main.py billing step does not conserve points. A client at 10
points sending the 2-character text hi is debited to 8 while the partner
stays at 1000, so the total across all users drops from 1010 to 1008: the
per-message transfer decreases the payer without crediting the payee,
contradicting conservation (the payee is credited only later, inside
database_end_conversation, which debits the client a second time). -/
theorem C1_main_billing_destroys_points :
    (chatManager_handle_message mainSessionDB 1 "hi").1 = MainResult.forwarded 2 ∧
    mainTotalPoints mainSessionDB = 1010 ∧
    mainTotalPoints (chatManager_handle_message mainSessionDB 1 "hi").2 = 1008 := by
  decide

/-- C3: insufficient-funds atomicity. An initiator holding fewer points
than the character count of the text is rejected with the insufficient
funds outcome and the state is returned unchanged, so neither balance
moves and nothing is delivered. -/
theorem C3_insufficient_funds_atomic (db : DB) (uid pid : Nat) (u : UserData) (s : String)
    (hu : getUser db uid = some u) (hconv : u.in_conversation = true)
    (hpart : u.conversation_partner = some pid) (hinit : u.is_initiator = true)
    (hs : s ≠ "") (hlt : u.points < (s.length : Int)) :
    handle_message db uid (.text s) = (SendResult.insufficientFunds, db) := by
  rw [handle_message_init db uid pid u s hu hconv hpart hinit hs]
  exact billUnit_reject db uid pid u _ hlt

/-- C3 witness: an initiator with 1 point sending the 5-character text
hello is rejected and the session state is untouched. -/
theorem C3_witness :
    handle_message poorSessionDB 1 (.text "hello") = (SendResult.insufficientFunds, poorSessionDB) :=
  C3_insufficient_funds_atomic poorSessionDB 1 2
    { boundInitiator with points := 1 } "hello"
    (by decide) (by decide) (by decide) (by decide) (by decide) (by decide)

/-- C10: the lomi.py write-then-read round trip of conversation_partner
fails on the unset value. update_user_data stores a cleared partner as the
string None, and get_user_data then feeds that truthy string to int, which
raises an uncaught ValueError: the read errors out instead of returning
the unset value. An integer id round-trips correctly, and the safe_int
helper of app.py maps the stored texts None and empty back to null,
exhibiting the intended contract. -/
theorem C10_partner_roundtrip_bug :
    partnerRoundtrip none = Except.error () ∧
    partnerRoundtrip (some 42) = Except.ok (some 42) ∧
    safe_int (some "None") = none ∧
    safe_int (some "") = none ∧
    safe_int (some "42") = some 42 := by
  refine ⟨rfl, rfl, by decide, by decide, by decide⟩

/-- C2 counterexample: pairing does not remove either side from the pool.
On two pooled users, tryPair binds 1 to 2 yet both keep in_pool true, and
the seeker ends in_conversation true and in_pool true at once, the state
the claim rules out. -/
theorem C2_pairing_leaves_pool_flag :
    (tryPair pairDB 1).1 = some 2 ∧
    ((getUser (tryPair pairDB 1).2 1).map (fun u => u.in_conversation)) = some true ∧
    ((getUser (tryPair pairDB 1).2 1).map (fun u => u.in_pool)) = some true ∧
    ((getUser (tryPair pairDB 1).2 2).map (fun u => u.in_pool)) = some true := by
  decide

/-- C5 counterexample: the database.py variant moves points at end time.
Ending a conversation with 5 billed characters takes the client from 10
points to 5 and the partner from 1000 to 1005, so end does not leave both
balances as they were. -/
theorem C5_database_end_moves_points :
    (database_end_conversation dbClient dbPartner 5).1.points = 5 ∧
    (database_end_conversation dbClient dbPartner 5).2.1.points = 1005 := by
  decide

/-- C7 counterexample: find_partner is not determined by the candidate
predicate alone. With the requester outside the pool and a fully
qualifying candidate present, the first candidate under the claimed
predicate is user 2, yet find_partner returns none because of its
requester-in-pool guard. -/
theorem C7_search_misses_candidate :
    specSearch outOfPoolDB 1 none none = some 2 ∧
    find_partner outOfPoolDB 1 = none := by
  decide

/-- C8 counterexample: Database.add_points carries no balance guard. An
admin adjustment of -1500 on a 1000-point user leaves the balance at
-500, which is negative. -/
theorem C8_add_points_goes_negative :
    (database_add_points dbIdleUser (-1500)).points = -500 := by
  decide

/-- C9 counterexample: a dangling partner reference is not self-healed at
send time. User 1 is in a conversation with partner id 99 while no row 99
exists; sending the text hi is reported delivered, the sender is billed
down to 8 points, a fresh row for 99 is created holding the credit, and
the sender keeps in_conversation true - no force-reset and no failure
report, contrary to the claim. -/
theorem C9_send_no_self_heal :
    (handle_message danglingDB 1 (.text "hi")).1 = SendResult.delivered 99 ∧
    ((getUser (handle_message danglingDB 1 (.text "hi")).2 1).map
      (fun u => u.in_conversation)) = some true ∧
    ((getUser (handle_message danglingDB 1 (.text "hi")).2 1).map
      (fun u => u.points)) = some 8 ∧
    ((getUser (handle_message danglingDB 1 (.text "hi")).2 99).map
      (fun u => u.points)) = some 2 := by
  decide

/-- C2 amended: a successful pairing marks both the seeker and the found
candidate in_conversation, sets the partner id of each to the other, flags
the seeker as initiator and the candidate as not, and removes NEITHER from
the pool: both in_pool flags are carried over unchanged, and both were
necessarily true for the pairing to happen, so a freshly paired user is
simultaneously in_conversation and in_pool. -/
theorem C2_tryPair_binds_without_pool_removal (db : DB) (uid pid : Nat) (u p : UserData)
    (hwf : WF db) (h : (tryPair db uid).1 = some pid)
    (hu : getUser db uid = some u) (hp : getUser db pid = some p) :
    u.in_pool = true ∧ p.in_pool = true ∧ pid ≠ uid ∧
    getUser (tryPair db uid).2 uid =
      some { u with in_conversation := true, conversation_partner := some pid,
                    is_initiator := true } ∧
    getUser (tryPair db uid).2 pid =
      some { p with in_conversation := true, conversation_partner := some uid,
                    is_initiator := false } := by
  have hfp : find_partner db uid = some pid := by
    rw [tryPair] at h
    cases hx : find_partner db uid with
    | none =>
        rw [hx] at h
        simp at h
    | some q =>
        rw [hx] at h
        simpa using h
  have hpool : u.in_pool = true := by
    by_contra hc
    simp only [find_partner, hu] at hfp
    rw [if_neg hc] at hfp
    simp at hfp
  have hfind2 := hfp
  simp only [find_partner, hu, if_pos hpool] at hfind2
  rw [Option.map_eq_some'] at hfind2
  obtain ⟨⟨k, d⟩, hfind, hk⟩ := hfind2
  simp only at hk
  cases hk
  have hqual := List.find?_some hfind
  have hmem := List.mem_of_find?_eq_some hfind
  have hd : d = p := by
    have hg := getUser_eq_of_mem db pid d hwf hmem
    rw [hp] at hg
    exact (Option.some.injEq _ _).mp hg.symm
  subst hd
  simp only [qualifies, Bool.and_eq_true, bne_iff_ne, ne_eq] at hqual
  have hne : pid ≠ uid := hqual.1.1.1.1.1
  refine ⟨hpool, hqual.1.1.1.1.2, hne, ?_, ?_⟩
  · simp only [tryPair, hfp]
    rw [getUser_modifyUser_ne _ _ _ _ (fun hh => hne hh.symm)]
    exact getUser_modifyUser_of_eq _ _ _ _ hu
  · simp only [tryPair, hfp]
    have h2 : getUser (modifyUser db uid (fun x =>
        { x with in_conversation := true, conversation_partner := some pid,
                 is_initiator := true })) pid = some d := by
      rw [getUser_modifyUser_ne _ _ _ _ hne]
      exact hp
    exact getUser_modifyUser_of_eq _ _ _ _ h2

/-- C2 witness: on the two pooled users, pairing binds them mutually with
the roles as stated while both keep in_pool true. -/
theorem C2_witness :
    pooledUser.in_pool = true ∧ pooledUser.in_pool = true ∧ 2 ≠ 1 ∧
    getUser (tryPair pairDB 1).2 1 =
      some { pooledUser with in_conversation := true, conversation_partner := some 2,
                             is_initiator := true } ∧
    getUser (tryPair pairDB 1).2 2 =
      some { pooledUser with in_conversation := true, conversation_partner := some 1,
                             is_initiator := false } :=
  C2_tryPair_binds_without_pool_removal pairDB 1 2 pooledUser pooledUser
    (by decide) (by decide) (by decide) (by decide)

/-- C4: billing asymmetry. In a session between an initiator and a
responder, a nonempty text of N characters sent by the funded initiator is
delivered and moves exactly N points from the initiator to the responder;
any text sent by the responder is delivered with the state, and hence both
balances, unchanged. -/
theorem C4_billing_asymmetry (db : DB) (uid pid : Nat) (u p : UserData) (s : String)
    (hu : getUser db uid = some u) (hconv : u.in_conversation = true)
    (hpart : u.conversation_partner = some pid) (hne : pid ≠ uid)
    (hp : getUser db pid = some p) (hs : s ≠ "") :
    (u.is_initiator = true → (s.length : Int) ≤ u.points →
      (handle_message db uid (.text s)).1 = SendResult.delivered pid ∧
      getUser (handle_message db uid (.text s)).2 uid =
        some { u with points := u.points - (s.length : Int) } ∧
      getUser (handle_message db uid (.text s)).2 pid =
        some { p with points := p.points + (s.length : Int) }) ∧
    (u.is_initiator = false →
      handle_message db uid (.text s) = (SendResult.delivered pid, db)) := by
  constructor
  · intro hinit hle
    rw [handle_message_init db uid pid u s hu hconv hpart hinit hs]
    exact billUnit_accept db uid pid u p _ hp hne hle hu
  · intro hinit
    exact handle_message_responder db uid pid u s hu hconv hpart hinit hs

/-- C4 witness: with both sides at 1000 points, the initiator sending the
2-character text hi ends at 998 while the responder ends at 1002, and a
text from the responder is delivered with no state change at all. -/
theorem C4_witness :
    (handle_message sessionDB 1 (.text "hi")).1 = SendResult.delivered 2 ∧
    getUser (handle_message sessionDB 1 (.text "hi")).2 1 =
      some { boundInitiator with points := 998 } ∧
    getUser (handle_message sessionDB 1 (.text "hi")).2 2 =
      some { boundResponder with points := 1002 } ∧
    handle_message sessionDB 2 (.text "ok") = (SendResult.delivered 1, sessionDB) := by
  have h1 := (C4_billing_asymmetry sessionDB 1 2 boundInitiator boundResponder "hi"
      (by decide) (by decide) (by decide) (by decide) (by decide) (by decide)).1
      (by decide) (by decide)
  have h2 := (C4_billing_asymmetry sessionDB 2 1 boundResponder boundInitiator "ok"
      (by decide) (by decide) (by decide) (by decide) (by decide) (by decide)).2
      (by decide)
  refine ⟨h1.1, ?_, ?_, h2⟩
  · rw [h1.2.1]
    decide
  · rw [h1.2.2]
    decide

/-- C5 amended: in the lomi.py and app.py engine, end only tears down the
binding state and leaves both participants at exactly the points they held
before the call; in the database.py variant, end additionally transfers
min(char_count, client_points) from the client to the partner - a
conserved transfer, but a balance change at end time. -/
theorem C5_end_frame (db : DB) (uid pid : Nat) (u p : UserData)
    (hu : getUser db uid = some u) (hconv : u.in_conversation = true)
    (hpart : u.conversation_partner = some pid) (hne : pid ≠ uid)
    (hp : getUser db pid = some p) :
    ((end_conversation db uid).1 = EndResult.ended (some pid) ∧
     (getUser (end_conversation db uid).2 uid).map (fun x => x.points) = some u.points ∧
     (getUser (end_conversation db uid).2 pid).map (fun x => x.points) = some p.points) ∧
    (∀ (c q : DbUser) (cc : Int),
      (database_end_conversation c q cc).1.points = c.points - min cc c.points ∧
      (database_end_conversation c q cc).2.1.points = q.points + min cc c.points ∧
      (database_end_conversation c q cc).1.points +
        (database_end_conversation c q cc).2.1.points = c.points + q.points) := by
  constructor
  · simp only [end_conversation, hu, hconv, if_true, hpart]
    refine ⟨trivial, ?_, ?_⟩
    · rw [getUser_modifyUser_ne _ _ _ _ (fun hh => hne hh.symm)]
      rw [getUser_modifyUser_of_eq _ _ _ _ hu]
      rfl
    · have h2 : getUser (modifyUser db uid resetSession) pid = some p := by
        rw [getUser_modifyUser_ne _ _ _ _ hne]
        exact hp
      rw [getUser_modifyUser_of_eq _ _ _ _ h2]
      rfl
  · intro c q cc
    refine ⟨rfl, rfl, ?_⟩
    show c.points - min cc c.points + (q.points + min cc c.points) = c.points + q.points
    ring

/-- C5 witness: ending the live 1000-1000 session leaves both balances at
1000; the database.py settlement at 5 characters moves exactly
min(5, client_points). -/
theorem C5_witness :
    (end_conversation sessionDB 1).1 = EndResult.ended (some 2) ∧
    (getUser (end_conversation sessionDB 1).2 1).map (fun x => x.points) = some 1000 ∧
    (getUser (end_conversation sessionDB 1).2 2).map (fun x => x.points) = some 1000 ∧
    (database_end_conversation dbClient dbPartner 5).1.points =
      dbClient.points - min 5 dbClient.points := by
  have h := C5_end_frame sessionDB 1 2 boundInitiator boundResponder
      (by decide) (by decide) (by decide) (by decide) (by decide)
  refine ⟨h.1.1, ?_, ?_, (h.2 dbClient dbPartner 5).1⟩
  · rw [h.1.2.1]
    decide
  · rw [h.1.2.2]
    decide

/-- C6: end is idempotent and symmetric. With users a and b bound to each
other, b calling end first reports the partner, resets both profiles to
unbound (in_conversation false, partner cleared), and the subsequent end
call by a observes the already-ended state, reports not-bound, and changes
nothing. -/
theorem C6_end_idempotent_symmetric (db : DB) (a b : Nat) (ua ub : UserData)
    (hne : a ≠ b) (ha : getUser db a = some ua) (hb : getUser db b = some ub)
    (_hca : ua.in_conversation = true) (hcb : ub.in_conversation = true)
    (_hpa : ua.conversation_partner = some b) (hpb : ub.conversation_partner = some a) :
    (end_conversation db b).1 = EndResult.ended (some a) ∧
    getUser (end_conversation db b).2 b = some (resetSession ub) ∧
    getUser (end_conversation db b).2 a = some (resetSession ua) ∧
    end_conversation (end_conversation db b).2 a =
      (EndResult.notBound, (end_conversation db b).2) := by
  simp only [end_conversation, hb, hcb, if_true, hpb]
  have hb1 : getUser (modifyUser db b resetSession) b = some (resetSession ub) :=
    getUser_modifyUser_of_eq _ _ _ _ hb
  have ha1 : getUser (modifyUser db b resetSession) a = getUser db a :=
    getUser_modifyUser_ne _ _ _ _ hne
  have hbf : getUser (modifyUser (modifyUser db b resetSession) a resetSession) b =
      some (resetSession ub) := by
    rw [getUser_modifyUser_ne _ _ _ _ (fun hh => hne hh.symm), hb1]
  have haf : getUser (modifyUser (modifyUser db b resetSession) a resetSession) a =
      some (resetSession ua) := by
    rw [getUser_modifyUser_self, ha1, ha]
    rfl
  refine ⟨trivial, hbf, haf, ?_⟩
  simp only [end_conversation, haf]
  simp [resetSession]

/-- C6 witness: on the live session, user 2 ends first and both reset;
user 1 ending afterwards is told not-bound with the state unchanged. -/
theorem C6_witness :
    (end_conversation sessionDB 2).1 = EndResult.ended (some 1) ∧
    getUser (end_conversation sessionDB 2).2 2 = some (resetSession boundResponder) ∧
    getUser (end_conversation sessionDB 2).2 1 = some (resetSession boundInitiator) ∧
    end_conversation (end_conversation sessionDB 2).2 1 =
      (EndResult.notBound, (end_conversation sessionDB 2).2) :=
  C6_end_idempotent_symmetric sessionDB 1 2 boundInitiator boundResponder
    (by decide) (by decide) (by decide) (by decide) (by decide) (by decide) (by decide)

lemma qualifies_eq_specQualifies (rid : Nat) (fg fa : Option String) (k : Nat) (d : UserData)
    (hg : fg ≠ some "") (ha : fa ≠ some "") :
    qualifies rid fg fa k d = specQualifies rid fg fa k d := by
  have hgb : ∀ g : String, fg = some g → (g == "") = false := by
    intro g hfg
    exact beq_eq_false_iff_ne.mpr (fun h => hg (by rw [hfg, h]))
  have hab : ∀ a : String, fa = some a → (a == "") = false := by
    intro a hfa
    exact beq_eq_false_iff_ne.mpr (fun h => ha (by rw [hfa, h]))
  cases fg with
  | none =>
      cases fa with
      | none => rfl
      | some a => simp [qualifies, specQualifies, Option.all, hab a rfl]
  | some g =>
      cases fa with
      | none => simp [qualifies, specQualifies, Option.all, hgb g rfl]
      | some a => simp [qualifies, specQualifies, Option.all, hgb g rfl, hab a rfl]

/-- C7 amended: whenever the requester exists and is itself in the pool
(the guard the claim omits), find_partner coincides with the spec-worded
search: the first candidate in scan order under the exact qualification
predicate, none when no candidate qualifies, with the filters taken from
the stored preferences (which the handlers only ever set to null or to a
nonempty enum text, hence the nonempty-filter hypotheses). Purity is
structural: find_partner returns only the candidate and no state. -/
theorem C7_find_partner_refines_search (db : DB) (uid : Nat) (u : UserData)
    (hu : getUser db uid = some u) (hpool : u.in_pool = true)
    (hg : u.preferred_gender ≠ some "") (ha : u.preferred_age_group ≠ some "") :
    find_partner db uid = specSearch db uid u.preferred_gender u.preferred_age_group := by
  simp only [find_partner, hu, if_pos hpool, specSearch]
  have hfun : (fun e : Nat × UserData =>
      qualifies uid u.preferred_gender u.preferred_age_group e.1 e.2) =
      (fun e : Nat × UserData =>
      specQualifies uid u.preferred_gender u.preferred_age_group e.1 e.2) := by
    funext e
    exact qualifies_eq_specQualifies uid u.preferred_gender u.preferred_age_group e.1 e.2 hg ha
  rw [hfun]

/-- C7 witness: for a pooled requester filtering on gender Male next to a
matching candidate, find_partner agrees with the spec-worded search. -/
theorem C7_witness :
    find_partner filteredDB 1 = specSearch filteredDB 1 (some "Male") none :=
  C7_find_partner_refines_search filteredDB 1
    { pooledUser with preferred_gender := some "Male" }
    (by decide) (by decide) (by decide) (by decide)

/-- C8 amended: AdminTool.remove_points never drives a nonnegative balance
negative, because it refuses whenever the balance is below the amount;
Database.add_points, by contrast, applies the signed delta unconditionally
(so a sufficiently negative adjustment produces a negative balance, as the
counterexample shows). -/
theorem C8_admin_balance_guard :
    (∀ (u : DbUser) (amount : Int), 0 ≤ u.points →
      0 ≤ (adminTool_remove_points u amount).2.points) ∧
    (∀ (u : DbUser) (amount : Int),
      (database_add_points u amount).points = u.points + amount) := by
  constructor
  · intro u amount h
    by_cases hc : u.points < amount
    · simp only [adminTool_remove_points, if_pos hc]
      exact h
    · simp only [adminTool_remove_points, if_neg hc]
      omega
  · intro u amount
    rfl

/-- C8 witness: removing 300 from a 1000-point user stays nonnegative, and
add_points applies its delta unconditionally. -/
theorem C8_witness :
    0 ≤ (adminTool_remove_points dbIdleUser 300).2.points ∧
    (database_add_points dbIdleUser (-1500)).points = dbIdleUser.points + (-1500) :=
  ⟨C8_admin_balance_guard.1 dbIdleUser 300 (by decide),
   C8_admin_balance_guard.2 dbIdleUser (-1500)⟩

/-- C9 amended: at end time the own session attributes of the requester are
always force-reset whenever the requester is in a conversation, whatever
the partner reference holds (unset, dangling, or valid), so the requester
is never left permanently stuck in_conversation - one end call always
recovers; at send time, by contrast, no such self-heal happens (the
counterexample bills against the dangling reference and leaves the
requester bound). -/
theorem C9_end_always_resets (db : DB) (uid : Nat) (u : UserData)
    (hu : getUser db uid = some u) (hconv : u.in_conversation = true) :
    getUser (end_conversation db uid).2 uid = some (resetSession u) := by
  simp only [end_conversation, hu, hconv, if_true]
  cases hp : u.conversation_partner with
  | none =>
      simp only
      exact getUser_modifyUser_of_eq _ _ _ _ hu
  | some pid =>
      simp only
      by_cases hne : pid = uid
      · subst hne
        rw [getUser_modifyUser_self]
        rw [getUser_modifyUser_of_eq _ _ _ _ hu]
        rfl
      · rw [getUser_modifyUser_ne _ _ _ _ (fun hh => hne hh.symm)]
        exact getUser_modifyUser_of_eq _ _ _ _ hu

/-- C9 witness: the user stuck with the dangling partner 99 is fully reset
by a single end call. -/
theorem C9_witness :
    getUser (end_conversation danglingDB 1).2 1 =
      some (resetSession { boundInitiator with points := 10, conversation_partner := some 99 }) :=
  C9_end_always_resets danglingDB 1
    { boundInitiator with points := 10, conversation_partner := some 99 }
    (by decide) (by decide)

end LomiChat
